import Mathlib

/-
Verification of the video-converter worker (Go repository):
the job handler (Handle), the idempotency store (IsProcessed), the chunk
merger (mergeChunks with extractNumber ordering), and the two processVideo
implementations present in the repository.

External effects (JSON unmarshal, database queries, file system calls,
the ffmpeg subprocess, RabbitMQ publish) are modelled as environments of
outcomes; the repository's own control flow and pure logic are translated
directly from the source. Go's sort.Slice carries no stability guarantee,
so the sort step is modelled by its contract: any permutation of the
discovered chunk list whose extracted keys are nondecreasing.
-/

/-! ## extractNumber: ordering key extraction (converter.go) -/

/-- Model of Go filepath.Base trailing-slash stripping: remove trailing
separators from the character list. -/
def dropTrailingSlashes (cs : List Char) : List Char :=
  ((cs.reverse).dropWhile (fun c => c == '/')).reverse

/-- Model of the last path element: the suffix after the last separator. -/
def afterLastSlash (cs : List Char) : List Char :=
  ((cs.reverse).takeWhile (fun c => !(c == '/'))).reverse

/-- Model of Go filepath.Base on a character list (unix separators):
empty path gives ".", all-separator path gives "/", otherwise the last
element with trailing separators removed. -/
def basenameList (cs : List Char) : List Char :=
  if cs = [] then ['.']
  else
    let stripped := dropTrailingSlashes cs
    let last := afterLastSlash stripped
    if last = [] then ['/'] else last

/-- Model of regexp \d+ FindString: the leftmost maximal run of ASCII
digits in the character list, or the empty list when there is none. -/
def firstDigitRun : List Char → List Char
  | [] => []
  | c :: cs => if c.isDigit then c :: cs.takeWhile Char.isDigit else firstDigitRun cs

/-- Decimal value of a digit run. -/
def digitsToNat (ds : List Char) : Nat :=
  ds.foldl (fun acc c => acc * 10 + (c.toNat - 48)) 0

/-- Model of strconv.Atoi restricted to digit-run inputs: fails on the
empty string and on values exceeding the int64 maximum (ErrRange),
otherwise returns the decimal value. -/
def atoiDigits (ds : List Char) : Option Int :=
  if ds.isEmpty then none
  else if digitsToNat ds ≤ 9223372036854775807 then some (Int.ofNat (digitsToNat ds)) else none

/-- Model of VideoConverter.extractNumber: the first run of digits in the
base name of the file, parsed as an integer; -1 when parsing fails. -/
def extractNumber (fileName : String) : Int :=
  match atoiDigits (firstDigitRun (basenameList fileName.data)) with
  | none => -1
  | some n => n

/-! ## mergeChunks (converter.go) -/

/-- Environment of file-system outcomes seen by one mergeChunks call:
the filepath.Glob result, the os.Create outcome, and per-chunk os.Open
and ReadFrom outcomes. -/
structure MergeFS where
  globResult : Except String (List String)
  createResult : Except String Unit
  openResult : String → Except String Unit
  readResult : String → Except String (List Nat)

/-- The merge failure cases of mergeChunks, carrying the offending chunk
identity where the source formats it into the error. -/
inductive MergeError where
  | globFailed (msg : String)
  | createFailed (msg : String)
  | openChunkFailed (chunk : String) (msg : String)
  | writeChunkFailed (chunk : String) (msg : String)
deriving DecidableEq, Repr

/-- The chunk-appending loop of mergeChunks: open each chunk, append its
full content to the output accumulator, abort on the first failure. -/
def mergeLoop (fs : MergeFS) : List String → List Nat → Except MergeError (List Nat)
  | [], acc => Except.ok acc
  | chunk :: rest, acc =>
    match fs.openResult chunk with
    | Except.error e => Except.error (MergeError.openChunkFailed chunk e)
    | Except.ok _ =>
      match fs.readResult chunk with
      | Except.error e => Except.error (MergeError.writeChunkFailed chunk e)
      | Except.ok bytes => mergeLoop fs rest (acc ++ bytes)

/-- mergeChunks after the sort: create the output file, then run the
appending loop over the sorted chunk list. -/
def mergeChunksRun (fs : MergeFS) (sortedChunks : List String) : Except MergeError (List Nat) :=
  match fs.createResult with
  | Except.error e => Except.error (MergeError.createFailed e)
  | Except.ok _ => mergeLoop fs sortedChunks []

/-- The comparison closure passed to sort.Slice in mergeChunks. -/
def chunkLess (a b : String) : Bool := decide (extractNumber a < extractNumber b)

/-- Contract of Go sort.Slice with the chunkLess comparison: the output is
a permutation of the input whose consecutive elements are never strictly
decreasing in key. sort.Slice is documented as not guaranteed stable, so
no further constraint holds. -/
def sortSliceOk (input output : List String) : Prop :=
  output.Perm input ∧ output.Chain' (fun x y => chunkLess y x = false)

/-- Full relational model of mergeChunks: glob failure is returned
directly; otherwise some sort.Slice-valid ordering of the discovered
chunks is merged by mergeChunksRun. -/
def mergeChunksRel (fs : MergeFS) (res : Except MergeError (List Nat)) : Prop :=
  match fs.globResult with
  | Except.error e => res = Except.error (MergeError.globFailed e)
  | Except.ok chunks => ∃ sorted, sortSliceOk chunks sorted ∧ res = mergeChunksRun fs sorted

/-- Nonstrict key order on chunk names. -/
def keyLE (a b : String) : Prop := extractNumber a ≤ extractNumber b

instance : DecidableRel keyLE := fun a b => inferInstanceAs (Decidable (_ ≤ _))

instance : IsTotal String keyLE := ⟨fun _ _ => Int.le_total _ _⟩

instance : IsTrans String keyLE := ⟨fun _ _ _ h1 h2 => Int.le_trans h1 h2⟩

deriving instance DecidableEq for Except

/-- Canonical ascending-by-key ordering of a chunk list. -/
def numericSort (chunks : List String) : List String := List.insertionSort keyLE chunks

/-- The content a successful read returns for a chunk. -/
def chunkContent (fs : MergeFS) (c : String) : List Nat :=
  match fs.readResult c with
  | Except.ok bytes => bytes
  | Except.error _ => []

/-- Byte concatenation of the chunks' contents in list order. -/
def contentsConcat (fs : MergeFS) (l : List String) : List Nat :=
  l.foldr (fun c acc => chunkContent fs c ++ acc) []

/-- Strict key order on chunk names. -/
def keyLT (a b : String) : Prop := extractNumber a < extractNumber b

instance : IsAntisymm String keyLT := ⟨fun _ _ h h2 => absurd h2 (lt_asymm h)⟩

/-! ## Idempotency store (idempotency.go) -/

/-- One row of the processed_videos table. -/
structure ProcessedRecord where
  video_id : Int
  status : String
deriving DecidableEq, Repr

/-- The EXISTS predicate of the IsProcessed query: a row with the given
video id and status success. -/
def rowMatches (videoId : Int) (r : ProcessedRecord) : Bool :=
  r.video_id == videoId && r.status == "success"

/-- IsProcessed including its logging effect: the first component is the
returned boolean, the second records whether the storage-error branch
logged. A storage error yields false. -/
def IsProcessedFull (db : Except String (List ProcessedRecord)) (videoId : Int) : Bool × Bool :=
  match db with
  | Except.error _ => (false, true)
  | Except.ok rows => (rows.any (rowMatches videoId), false)

/-- The boolean IsProcessed returns to Handle. -/
def IsProcessed (db : Except String (List ProcessedRecord)) (videoId : Int) : Bool :=
  (IsProcessedFull db videoId).1

/-! ## processVideo: both implementations -/

/-- Environment of stage outcomes seen by one processVideo call: the
mergeChunks outcome, the os.MkdirAll outcome, the ffmpeg CombinedOutput
outcome with its captured output, and the os.Remove outcome. -/
structure ProcEnv where
  mergeResult : Except String Unit
  mkdirResult : Except String Unit
  ffmpegResult : Except String Unit
  ffmpegOutput : String
  removeResult : Except String Unit

/-- Observable outcome of a processVideo call: its returned error value
and which later stages were reached. -/
structure ProcResult where
  result : Except String Unit
  transcodeCalled : Bool
  removeCalled : Bool
  removeWarned : Bool
deriving DecidableEq, Repr

/-- The RabbitMQ-integrated processVideo: merge, mkdir, ffmpeg, then
delete the merged file; a delete failure is only warned about and the
function still returns nil. -/
def processVideo (env : ProcEnv) : ProcResult :=
  match env.mergeResult with
  | Except.error e =>
    { result := Except.error ("failed to merge chunks: " ++ e),
      transcodeCalled := false, removeCalled := false, removeWarned := false }
  | Except.ok _ =>
    match env.mkdirResult with
    | Except.error e =>
      { result := Except.error ("failed to create output directory: " ++ e),
        transcodeCalled := false, removeCalled := false, removeWarned := false }
    | Except.ok _ =>
      match env.ffmpegResult with
      | Except.error e =>
        { result := Except.error ("failed to convert to MPEG-DASH: " ++ e ++ ", output: " ++ env.ffmpegOutput),
          transcodeCalled := true, removeCalled := false, removeWarned := false }
      | Except.ok _ =>
        match env.removeResult with
        | Except.error _ =>
          { result := Except.ok (), transcodeCalled := true, removeCalled := true, removeWarned := true }
        | Except.ok _ =>
          { result := Except.ok (), transcodeCalled := true, removeCalled := true, removeWarned := false }

/-- The standalone converter's processVideo: identical staging, except
that a failure to delete the merged file is returned as an error. -/
def processVideoStandalone (env : ProcEnv) : ProcResult :=
  match env.mergeResult with
  | Except.error e =>
    { result := Except.error e, transcodeCalled := false, removeCalled := false, removeWarned := false }
  | Except.ok _ =>
    match env.mkdirResult with
    | Except.error e =>
      { result := Except.error e, transcodeCalled := false, removeCalled := false, removeWarned := false }
    | Except.ok _ =>
      match env.ffmpegResult with
      | Except.error e =>
        { result := Except.error e, transcodeCalled := true, removeCalled := false, removeWarned := false }
      | Except.ok _ =>
        match env.removeResult with
        | Except.error e =>
          { result := Except.error e, transcodeCalled := true, removeCalled := true, removeWarned := false }
        | Except.ok _ =>
          { result := Except.ok (), transcodeCalled := true, removeCalled := true, removeWarned := false }

/-! ## Handle (converter.go, RabbitMQ-integrated) -/

/-- The deserialized job message. -/
structure VideoTask where
  videoId : Int
  path : String
deriving DecidableEq, Repr

/-- Environment of outcomes seen by one Handle call: the json.Unmarshal
result, the database state answering the idempotency query, the
processVideo stage outcomes, the MarkProcessed outcome, and the
PublishMessage outcome. -/
structure HandleEnv where
  unmarshal : Except String VideoTask
  db : Except String (List ProcessedRecord)
  proc : ProcEnv
  markResult : Except String Unit
  publishResult : Except String Unit

/-- Observable effects of one Handle call: whether the delivery was
acked, which collaborators were invoked, and which failure branches
logged. -/
structure HandleResult where
  acked : Bool
  procCalled : Bool
  transcodeCalled : Bool
  markCalled : Bool
  publishCalled : Bool
  loggedUnmarshalError : Bool
  loggedProcessError : Bool
  loggedMarkError : Bool
  loggedPublishError : Bool
deriving DecidableEq, Repr

/-- The RabbitMQ-integrated Handle: unmarshal, idempotency gate (ack and
return on duplicate), processVideo, MarkProcessed, then ack and publish
the confirmation; the publish error is assigned and never inspected. -/
def Handle (env : HandleEnv) : HandleResult :=
  match env.unmarshal with
  | Except.error _ =>
    { acked := false, procCalled := false, transcodeCalled := false, markCalled := false,
      publishCalled := false, loggedUnmarshalError := true, loggedProcessError := false,
      loggedMarkError := false, loggedPublishError := false }
  | Except.ok task =>
    if IsProcessed env.db task.videoId then
      { acked := true, procCalled := false, transcodeCalled := false, markCalled := false,
        publishCalled := false, loggedUnmarshalError := false, loggedProcessError := false,
        loggedMarkError := false, loggedPublishError := false }
    else
      let p := processVideo env.proc
      match p.result with
      | Except.error _ =>
        { acked := false, procCalled := true, transcodeCalled := p.transcodeCalled,
          markCalled := false, publishCalled := false, loggedUnmarshalError := false,
          loggedProcessError := true, loggedMarkError := false, loggedPublishError := false }
      | Except.ok _ =>
        match env.markResult with
        | Except.error _ =>
          { acked := false, procCalled := true, transcodeCalled := p.transcodeCalled,
            markCalled := true, publishCalled := false, loggedUnmarshalError := false,
            loggedProcessError := false, loggedMarkError := true, loggedPublishError := false }
        | Except.ok _ =>
          { acked := true, procCalled := true, transcodeCalled := p.transcodeCalled,
            markCalled := true, publishCalled := true, loggedUnmarshalError := false,
            loggedProcessError := false, loggedMarkError := false, loggedPublishError := false }

/-! ## Concrete environments used by witnesses and counterexamples -/

/-- A processVideo environment in which every stage succeeds. -/
def allOkProcEnv : ProcEnv :=
  { mergeResult := Except.ok (), mkdirResult := Except.ok (), ffmpegResult := Except.ok (),
    ffmpegOutput := "", removeResult := Except.ok () }

/-- A processVideo environment in which everything succeeds except the
deletion of the merged file. -/
def removeFailProcEnv : ProcEnv :=
  { mergeResult := Except.ok (), mkdirResult := Except.ok (), ffmpegResult := Except.ok (),
    ffmpegOutput := "", removeResult := Except.error "permission denied" }

/-- A merge file system whose chunk directory holds chunks numbered 1, 2
and 10; the glob discovery order is lexical, so 10 precedes 2 there. -/
def mergeWitnessFS : MergeFS :=
  { globResult := Except.ok ["1.chunk", "10.chunk", "2.chunk"],
    createResult := Except.ok (),
    openResult := fun _ => Except.ok (),
    readResult := fun c =>
      if c = "1.chunk" then Except.ok [1]
      else if c = "2.chunk" then Except.ok [2, 2]
      else if c = "10.chunk" then Except.ok [10]
      else Except.error "missing chunk" }

/-- A merge file system holding one numbered chunk and one chunk whose
name carries no digits. -/
def legacyChunkFS : MergeFS :=
  { globResult := Except.ok ["2.chunk", "legacy.chunk"],
    createResult := Except.ok (),
    openResult := fun _ => Except.ok (),
    readResult := fun c =>
      if c = "legacy.chunk" then Except.ok [7] else Except.ok [2] }

/-! ## Claim theorems: handler and idempotency store -/

/-- C1: Handle positively acknowledges the delivery exactly when either
the idempotency check reports the video already processed, or the
pipeline succeeded and the subsequent MarkProcessed write succeeded;
every other outcome (unmarshal failure, pipeline failure, MarkProcessed
failure) leaves the message unacknowledged. -/
theorem Handle_ack_iff (env : HandleEnv) :
    (Handle env).acked = true ↔
      (∃ t, env.unmarshal = Except.ok t ∧
        (IsProcessed env.db t.videoId = true ∨
          (IsProcessed env.db t.videoId = false ∧
            (processVideo env.proc).result = Except.ok () ∧
            env.markResult = Except.ok ()))) := by
  cases hu : env.unmarshal with
  | error e => simp [Handle, hu]
  | ok t =>
    by_cases hp : IsProcessed env.db t.videoId = true
    · simp [Handle, hu, hp]
    · cases hr : (processVideo env.proc).result with
      | error e =>
        simp [Handle, hu, hp, hr, Bool.not_eq_true] at *
      | ok u =>
        cases u
        cases hm : env.markResult with
        | error e =>
          simp [Handle, hu, hp, hr, hm, Bool.not_eq_true] at *
        | ok v =>
          cases v
          simp [Handle, hu, hp, hr, hm, Bool.not_eq_true] at *

/-- C2: when the idempotency store reports the job's videoId as already
processed, Handle acknowledges and returns without running the pipeline,
without a MarkProcessed insert, and without publishing a confirmation. -/
theorem Handle_duplicate_shortCircuit (env : HandleEnv) (t : VideoTask)
    (h1 : env.unmarshal = Except.ok t) (h2 : IsProcessed env.db t.videoId = true) :
    (Handle env).acked = true ∧ (Handle env).procCalled = false ∧
    (Handle env).transcodeCalled = false ∧ (Handle env).markCalled = false ∧
    (Handle env).publishCalled = false := by
  simp [Handle, h1, h2]

/-- Witness for C2 at a concrete environment: a delivery for video 1
with a matching success row in the processed table. -/
theorem Handle_duplicate_shortCircuit_witness :
    (Handle { unmarshal := Except.ok { videoId := 1, path := "media/uploads/1" },
              db := Except.ok [{ video_id := 1, status := "success" }],
              proc := allOkProcEnv, markResult := Except.ok (),
              publishResult := Except.ok () }).acked = true := by
  exact (Handle_duplicate_shortCircuit _ { videoId := 1, path := "media/uploads/1" } rfl
    (by decide)).1

/-- C4: when the pipeline succeeds but the MarkProcessed write fails,
Handle logs the mark failure and returns without acknowledging and
without publishing a confirmation. -/
theorem Handle_markFailure_noAck (env : HandleEnv) (t : VideoTask) (e : String)
    (h1 : env.unmarshal = Except.ok t) (h2 : IsProcessed env.db t.videoId = false)
    (h3 : (processVideo env.proc).result = Except.ok ())
    (h4 : env.markResult = Except.error e) :
    (Handle env).loggedMarkError = true ∧ (Handle env).acked = false ∧
    (Handle env).publishCalled = false := by
  simp [Handle, h1, h2, h3, h4]

/-- A Handle environment where the pipeline succeeds and the
MarkProcessed insert fails. -/
def markFailEnv : HandleEnv :=
  { unmarshal := Except.ok { videoId := 2, path := "media/uploads/2" },
    db := Except.ok [], proc := allOkProcEnv,
    markResult := Except.error "insert failed", publishResult := Except.ok () }

/-- Witness for C4 at a concrete environment: pipeline succeeds, the
MarkProcessed insert fails. -/
theorem Handle_markFailure_noAck_witness :
    (Handle markFailEnv).acked = false := by
  exact (Handle_markFailure_noAck markFailEnv { videoId := 2, path := "media/uploads/2" }
    "insert failed" rfl (by decide) rfl rfl).2.1

/-- C6 evaluation: with the pipeline and MarkProcessed succeeding and
PublishMessage failing, Handle still acks and keeps the processed mark,
but no log or report of the publish failure occurs: the error returned
by PublishMessage is assigned and never inspected. -/
theorem Handle_publishFailure_ignored :
    (Handle { unmarshal := Except.ok { videoId := 1, path := "media/uploads/1" },
              db := Except.ok [], proc := allOkProcEnv, markResult := Except.ok (),
              publishResult := Except.error "publish failed" }).acked = true ∧
    (Handle { unmarshal := Except.ok { videoId := 1, path := "media/uploads/1" },
              db := Except.ok [], proc := allOkProcEnv, markResult := Except.ok (),
              publishResult := Except.error "publish failed" }).markCalled = true ∧
    (Handle { unmarshal := Except.ok { videoId := 1, path := "media/uploads/1" },
              db := Except.ok [], proc := allOkProcEnv, markResult := Except.ok (),
              publishResult := Except.error "publish failed" }).publishCalled = true ∧
    (Handle { unmarshal := Except.ok { videoId := 1, path := "media/uploads/1" },
              db := Except.ok [], proc := allOkProcEnv, markResult := Except.ok (),
              publishResult := Except.error "publish failed" }).loggedPublishError = false := by
  refine ⟨?_, ?_, ?_, ?_⟩ <;> decide

/-- C7: the idempotency check treats a storage error as not processed
(returning false and logging), and returns true exactly when the table
holds a row with the queried videoId and status success. -/
theorem IsProcessed_spec (db : Except String (List ProcessedRecord)) (videoId : Int) :
    (∀ e, db = Except.error e → IsProcessedFull db videoId = (false, true)) ∧
    (IsProcessed db videoId = true ↔
      ∃ rows, db = Except.ok rows ∧
        ∃ r ∈ rows, r.video_id = videoId ∧ r.status = "success") := by
  constructor
  · intro e he
    subst he
    rfl
  · cases db with
    | error e => simp [IsProcessed, IsProcessedFull]
    | ok rows =>
      simp [IsProcessed, IsProcessedFull, List.any_eq_true, rowMatches, Bool.and_eq_true,
        beq_iff_eq]

/-- Witness for C7: a storage error yields (false, logged), and a table
holding a success row for video 7 yields true. -/
theorem IsProcessed_spec_witness :
    IsProcessedFull (Except.error "db down") 7 = (false, true) ∧
    IsProcessed (Except.ok [{ video_id := 7, status := "success" }]) 7 = true := by
  refine ⟨(IsProcessed_spec (Except.error "db down") 7).1 "db down" rfl, ?_⟩
  exact (IsProcessed_spec (Except.ok [{ video_id := 7, status := "success" }]) 7).2.mpr
    ⟨[{ video_id := 7, status := "success" }], rfl,
      { video_id := 7, status := "success" }, by simp, rfl, rfl⟩

/-! ## Claim theorems: processVideo cleanup and the two implementations -/

/-- C9: after a successful transcode the merged artifact deletion is
attempted, and a deletion failure is only warned about: processVideo
still returns success. -/
theorem processVideo_removeFailure_stillSuccess (env : ProcEnv)
    (h1 : env.mergeResult = Except.ok ()) (h2 : env.mkdirResult = Except.ok ())
    (h3 : env.ffmpegResult = Except.ok ()) :
    (processVideo env).removeCalled = true ∧ (processVideo env).result = Except.ok () ∧
    (∀ e, env.removeResult = Except.error e → (processVideo env).removeWarned = true) := by
  cases hr : env.removeResult with
  | error e => simp [processVideo, h1, h2, h3, hr]
  | ok v => cases v; simp [processVideo, h1, h2, h3, hr]

/-- Witness for C9 at a concrete environment where the deletion fails. -/
theorem processVideo_removeFailure_stillSuccess_witness :
    (processVideo removeFailProcEnv).removeCalled = true ∧
    (processVideo removeFailProcEnv).result = Except.ok () ∧
    (processVideo removeFailProcEnv).removeWarned = true := by
  have h := processVideo_removeFailure_stillSuccess removeFailProcEnv rfl rfl rfl
  exact ⟨h.1, h.2.1, h.2.2 "permission denied" rfl⟩

/-- C10 counterexample: on the task environment where merge, mkdir and
ffmpeg succeed but deleting the merged file fails, the RabbitMQ-integrated
processVideo returns success while the standalone processVideo returns an
error, so the two implementations do not return the same outcome for
every input. -/
theorem processVideo_implementations_differ :
    (processVideo removeFailProcEnv).result.isOk = true ∧
    (processVideoStandalone removeFailProcEnv).result.isOk = false := by
  exact ⟨rfl, rfl⟩

/-- C10 amended: the two processVideo implementations return the same
success/failure outcome exactly on those environments that do not reach
a successful transcode followed by a failed merged-file deletion. -/
theorem processVideo_agree_iff (env : ProcEnv) :
    ((processVideo env).result.isOk = (processVideoStandalone env).result.isOk) ↔
      ¬(env.mergeResult.isOk = true ∧ env.mkdirResult.isOk = true ∧
        env.ffmpegResult.isOk = true ∧ env.removeResult.isOk = false) := by
  cases h1 : env.mergeResult <;> cases h2 : env.mkdirResult <;>
    cases h3 : env.ffmpegResult <;> cases h4 : env.removeResult <;>
    simp [processVideo, processVideoStandalone, h1, h2, h3, h4, Except.isOk, Except.toBool]

/-! ## Merge ordering lemmas -/

/-- The sort.Slice comparison refuses to place a strictly smaller key
after a larger one exactly when the keys are in nonstrict order. -/
theorem chunkLess_eq_false_iff (a b : String) : chunkLess b a = false ↔ keyLE a b := by
  simp [chunkLess, keyLE, Int.not_lt]

/-- Any valid sort.Slice output is pairwise nondecreasing in key. -/
theorem sortSliceOk_pairwise_keyLE {input output : List String} (h : sortSliceOk input output) :
    output.Pairwise keyLE := by
  have hc : output.Chain' keyLE := h.2.imp fun a b hab => (chunkLess_eq_false_iff a b).mp hab
  exact List.chain'_iff_pairwise.mp hc

/-- Pairwise-distinct extracted keys survive permutation. -/
theorem pairwise_distinct_perm {input output : List String} (hp : output.Perm input)
    (hd : input.Pairwise fun a b => extractNumber a ≠ extractNumber b) :
    output.Pairwise fun a b => extractNumber a ≠ extractNumber b :=
  (hp.pairwise_iff fun hab => Ne.symm hab).mpr hd

/-- With pairwise-distinct keys, any valid sort.Slice output is strictly
increasing in key. -/
theorem sortSliceOk_pairwise_keyLT {input output : List String}
    (hd : input.Pairwise fun a b => extractNumber a ≠ extractNumber b)
    (h : sortSliceOk input output) : output.Pairwise keyLT := by
  have h1 := sortSliceOk_pairwise_keyLE h
  have h2 := pairwise_distinct_perm h.1 hd
  exact (h1.and h2).imp fun hab => lt_of_le_of_ne hab.1 hab.2

/-- With pairwise-distinct keys the sorted order is unique: any two valid
sort.Slice outputs of the same discovered list coincide. -/
theorem sortedKeyUnique {input o1 o2 : List String}
    (hd : input.Pairwise fun a b => extractNumber a ≠ extractNumber b)
    (h1 : sortSliceOk input o1) (h2 : sortSliceOk input o2) : o1 = o2 :=
  List.eq_of_perm_of_sorted (h1.1.trans h2.1.symm)
    (sortSliceOk_pairwise_keyLT hd h1) (sortSliceOk_pairwise_keyLT hd h2)

/-- The canonical ascending sort is itself a valid sort.Slice output. -/
theorem numericSort_sortSliceOk (chunks : List String) :
    sortSliceOk chunks (numericSort chunks) := by
  constructor
  · exact List.perm_insertionSort keyLE chunks
  · have hs : (numericSort chunks).Pairwise keyLE := List.sorted_insertionSort keyLE chunks
    have hc : (numericSort chunks).Chain' keyLE := List.chain'_iff_pairwise.mpr hs
    exact hc.imp fun a b hab => (chunkLess_eq_false_iff a b).mpr hab

/-- When the output file was created and every chunk opens and reads
successfully, the merge loop appends each chunk's full content in list
order. -/
theorem mergeLoop_eq_ok (fs : MergeFS) (l : List String) :
    ∀ acc : List Nat,
      (∀ c ∈ l, fs.openResult c = Except.ok () ∧ (fs.readResult c).isOk = true) →
      mergeLoop fs l acc = Except.ok (acc ++ contentsConcat fs l) := by
  induction l with
  | nil =>
    intro acc _
    simp [mergeLoop, contentsConcat]
  | cons chunk rest ih =>
    intro acc h
    obtain ⟨ho, hrd⟩ := h chunk (List.mem_cons_self _ _)
    cases hr : fs.readResult chunk with
    | error e =>
      rw [hr] at hrd
      simp [Except.isOk, Except.toBool] at hrd
    | ok bytes =>
      have ih2 := ih (acc ++ bytes) fun c hc => h c (List.mem_cons_of_mem _ hc)
      simp [mergeLoop, ho, hr, ih2, contentsConcat, chunkContent, List.append_assoc]

/-! ## Claim theorems: chunk merge ordering -/

/-- C3: with all chunk reads succeeding and pairwise-distinct numeric
keys, every possible mergeChunks outcome equals the byte concatenation of
the chunks' contents in ascending numeric key order. -/
theorem mergeChunks_numericOrder (fs : MergeFS) (chunks : List String)
    (res : Except MergeError (List Nat))
    (hglob : fs.globResult = Except.ok chunks)
    (hcreate : fs.createResult = Except.ok ())
    (hdist : chunks.Pairwise fun a b => extractNumber a ≠ extractNumber b)
    (hreads : ∀ c ∈ chunks, fs.openResult c = Except.ok () ∧ (fs.readResult c).isOk = true)
    (hrel : mergeChunksRel fs res) :
    res = Except.ok (contentsConcat fs (numericSort chunks)) := by
  unfold mergeChunksRel at hrel
  rw [hglob] at hrel
  obtain ⟨sorted, hsort, hres⟩ := hrel
  have heq : sorted = numericSort chunks :=
    sortedKeyUnique hdist hsort (numericSort_sortSliceOk chunks)
  subst heq
  have hreads2 : ∀ c ∈ numericSort chunks,
      fs.openResult c = Except.ok () ∧ (fs.readResult c).isOk = true :=
    fun c hc => hreads c ((List.perm_insertionSort keyLE chunks).mem_iff.mp hc)
  rw [hres]
  simp only [mergeChunksRun, hcreate]
  rw [mergeLoop_eq_ok fs (numericSort chunks) [] hreads2, List.nil_append]

/-- Witness for C3: chunks named 1, 10, 2 (glob discovery order is
lexical) merge to the contents of 1, 2, 10 in numeric order. -/
theorem mergeChunks_numericOrder_witness :
    mergeChunksRel mergeWitnessFS (Except.ok [1, 2, 2, 10]) ∧
    (Except.ok [1, 2, 2, 10] : Except MergeError (List Nat)) =
      Except.ok (contentsConcat mergeWitnessFS (numericSort ["1.chunk", "10.chunk", "2.chunk"])) := by
  have hrel : mergeChunksRel mergeWitnessFS (Except.ok [1, 2, 2, 10]) := by
    refine ⟨["1.chunk", "2.chunk", "10.chunk"], ⟨by decide, ?_⟩, by decide⟩
    simp [List.chain'_cons, List.chain'_singleton]
    refine ⟨?_, ?_⟩ <;> decide
  exact ⟨hrel, mergeChunks_numericOrder mergeWitnessFS _ _ rfl rfl (by decide) (by decide) hrel⟩

/-- C5 counterexample: sort.Slice gives no stability guarantee, so two
chunks with the equal extracted key 2 may be emitted in either order; an
output reversing their discovery order is a valid sort result, refuting
the claim that ties always keep discovery order. -/
theorem sortSlice_not_stable :
    ¬(∀ input output : List String, sortSliceOk input output →
        ∀ k : Int, output.filter (fun c => extractNumber c == k) =
          input.filter (fun c => extractNumber c == k)) := by
  intro h
  have hs : sortSliceOk ["a2.chunk", "b2.chunk"] ["b2.chunk", "a2.chunk"] := by
    refine ⟨by decide, ?_⟩
    simp [List.chain'_cons, List.chain'_singleton]
    decide
  have h2 := h ["a2.chunk", "b2.chunk"] ["b2.chunk", "a2.chunk"] hs 2
  revert h2
  decide

/-- C5 amended: the sort over chunk keys is not guaranteed stable, but
whenever the discovered chunks have pairwise-distinct extracted keys the
merge order is deterministic: any two valid sort.Slice outputs agree. -/
theorem sortSlice_deterministic_of_distinctKeys (input o1 o2 : List String)
    (hd : input.Pairwise fun a b => extractNumber a ≠ extractNumber b)
    (h1 : sortSliceOk input o1) (h2 : sortSliceOk input o2) : o1 = o2 :=
  sortedKeyUnique hd h1 h2

/-- Witness for the amended C5 at a concrete discovery list with
distinct keys. -/
theorem sortSlice_deterministic_of_distinctKeys_witness :
    (["1.chunk", "2.chunk", "10.chunk"] : List String) = ["1.chunk", "2.chunk", "10.chunk"] := by
  have hsort : sortSliceOk ["1.chunk", "10.chunk", "2.chunk"] ["1.chunk", "2.chunk", "10.chunk"] := by
    refine ⟨by decide, ?_⟩
    simp [List.chain'_cons, List.chain'_singleton]
    refine ⟨?_, ?_⟩ <;> decide
  exact sortSlice_deterministic_of_distinctKeys ["1.chunk", "10.chunk", "2.chunk"]
    ["1.chunk", "2.chunk", "10.chunk"] ["1.chunk", "2.chunk", "10.chunk"]
    (by decide) hsort hsort

/-! ## Sentinel-key lemmas for digitless chunk names -/

/-- Characters of the last path element come from the original path. -/
theorem mem_afterLastSlash {cs : List Char} {c : Char} (h : c ∈ afterLastSlash cs) : c ∈ cs := by
  unfold afterLastSlash at h
  rw [List.mem_reverse] at h
  have h2 := (List.takeWhile_sublist _).mem h
  rwa [List.mem_reverse] at h2

/-- Characters surviving trailing-slash stripping come from the original
path. -/
theorem mem_dropTrailingSlashes {cs : List Char} {c : Char}
    (h : c ∈ dropTrailingSlashes cs) : c ∈ cs := by
  unfold dropTrailingSlashes at h
  rw [List.mem_reverse] at h
  have h2 := (List.dropWhile_sublist _).mem h
  rwa [List.mem_reverse] at h2

/-- The base name of a digitless path is digitless. -/
theorem basenameList_noDigits (cs : List Char) (h : ∀ c ∈ cs, c.isDigit = false) :
    ∀ c ∈ basenameList cs, c.isDigit = false := by
  intro c hc
  unfold basenameList at hc
  by_cases hcs : cs = []
  · simp [hcs] at hc
    subst hc
    decide
  · simp only [hcs, if_false] at hc
    by_cases hl : afterLastSlash (dropTrailingSlashes cs) = []
    · simp [hl] at hc
      subst hc
      decide
    · simp [hl] at hc
      exact h c (mem_dropTrailingSlashes (mem_afterLastSlash hc))

/-- A digitless character list holds no digit run. -/
theorem firstDigitRun_eq_nil (l : List Char) (h : ∀ c ∈ l, c.isDigit = false) :
    firstDigitRun l = [] := by
  induction l with
  | nil => rfl
  | cons c cs ih =>
    have hc := h c (List.mem_cons_self _ _)
    simp [firstDigitRun, hc]
    exact ih fun d hd => h d (List.mem_cons_of_mem _ hd)

/-- In a list pairwise nondecreasing in key, any member with a negative
key sits in the negative-key front segment. -/
theorem mem_takeWhile_neg_of_pairwise {l : List String} {x : String}
    (hpw : l.Pairwise keyLE) (hx : x ∈ l) (hneg : extractNumber x < 0) :
    x ∈ l.takeWhile fun c => decide (extractNumber c < 0) := by
  induction l with
  | nil => cases hx
  | cons c cs ih =>
    rw [List.pairwise_cons] at hpw
    obtain ⟨hhead, htail⟩ := hpw
    by_cases hc : extractNumber c < 0
    · rw [List.takeWhile_cons, if_pos (by simpa using hc)]
      cases List.mem_cons.mp hx with
      | inl he => exact he ▸ List.mem_cons_self _ _
      | inr hm => exact List.mem_cons_of_mem _ (ih htail hm)
    · exfalso
      cases List.mem_cons.mp hx with
      | inl he => exact hc (he ▸ hneg)
      | inr hm =>
        have hle : extractNumber c ≤ extractNumber x := hhead x hm
        exact hc (lt_of_le_of_lt hle hneg)

/-- C8: a chunk whose filename holds no digits gets the sentinel key -1,
which orders strictly before every numbered chunk; and such a chunk never
aborts the merge: whenever the file operations succeed, mergeChunks
succeeds and the digitless chunk is placed in the front negative-key
segment of the merged order. -/
theorem extractNumber_noDigits (name : String)
    (h : ∀ c ∈ name.data, c.isDigit = false) :
    extractNumber name = -1 ∧
    (∀ other : String, 0 ≤ extractNumber other → extractNumber name < extractNumber other) ∧
    (∀ (fs : MergeFS) (chunks sorted : List String),
      fs.globResult = Except.ok chunks → name ∈ chunks →
      fs.createResult = Except.ok () →
      (∀ c ∈ chunks, fs.openResult c = Except.ok () ∧ (fs.readResult c).isOk = true) →
      sortSliceOk chunks sorted →
      (mergeChunksRun fs sorted).isOk = true ∧
      name ∈ sorted.takeWhile fun c => decide (extractNumber c < 0)) := by
  have hkey : extractNumber name = -1 := by
    unfold extractNumber
    rw [firstDigitRun_eq_nil _ (basenameList_noDigits name.data h)]
    rfl
  refine ⟨hkey, ?_, ?_⟩
  · intro other hother
    rw [hkey]
    exact lt_of_lt_of_le (by decide) hother
  · intro fs chunks sorted hglob hmem hcreate hreads hsort
    have hreads2 : ∀ c ∈ sorted, fs.openResult c = Except.ok () ∧ (fs.readResult c).isOk = true :=
      fun c hc => hreads c (hsort.1.mem_iff.mp hc)
    constructor
    · simp only [mergeChunksRun, hcreate]
      rw [mergeLoop_eq_ok fs sorted [] hreads2]
      rfl
    · have hpw := sortSliceOk_pairwise_keyLE hsort
      have hmem2 : name ∈ sorted := hsort.1.mem_iff.mpr hmem
      have hneg : extractNumber name < 0 := by rw [hkey]; decide
      exact mem_takeWhile_neg_of_pairwise hpw hmem2 hneg

/-- Witness for C8: a directory holding the digitless chunk legacy.chunk
and the numbered chunk 2.chunk merges successfully, the digitless chunk
keyed -1 and placed at the front. -/
theorem extractNumber_noDigits_witness :
    extractNumber "legacy.chunk" = -1 ∧
    (mergeChunksRun legacyChunkFS ["legacy.chunk", "2.chunk"]).isOk = true ∧
    "legacy.chunk" ∈ (["legacy.chunk", "2.chunk"].takeWhile fun c => decide (extractNumber c < 0)) := by
  have h := extractNumber_noDigits "legacy.chunk" (by decide)
  have hsort : sortSliceOk ["2.chunk", "legacy.chunk"] ["legacy.chunk", "2.chunk"] := by
    refine ⟨by decide, ?_⟩
    simp [List.chain'_cons, List.chain'_singleton]
    decide
  have hc := h.2.2 legacyChunkFS ["2.chunk", "legacy.chunk"] ["legacy.chunk", "2.chunk"]
    rfl (by decide) rfl (by decide) hsort
  exact ⟨h.1, hc.1, hc.2⟩
